import Mathlib

/-!
Verification development for the polling/reconciliation core of the
Email Sorting POC.

The embedding below translates the relevant parts of the source:

* `src/classifier.py`  - `PRESET_CATEGORIES`, `classify_email`;
* `src/main.py`        - the in-memory store (`processed_emails`,
  `last_check_time`, lines 57-58), the storage helpers `is_processed`
  (161-171) and `mark_processed` (174-198), and the reconciliation cycle
  `process_new_emails_internal` (841-1009);
* `src/scheduler.py` together with the `/inbox/process-new` endpoint -
  a two-task interleaving model of the on-demand HTTP trigger running
  concurrently with a scheduler-triggered execution of the same cycle.

Modelling choices:

* Wall-clock time is abstract: `clock : ℕ → Time` gives the value
  returned by the n-th `datetime.utcnow()` read, and a cycle is invoked
  at read position `tick0`; `mark_processed` consumes one read per
  processed message (line 194) and the final watermark assignment
  consumes the read after the loop (line 995).
* The Python dict `processed_emails` is an insertion-ordered association
  list; assignment replaces the value in place for an existing key and
  appends otherwise (`dictInsert`).
* The external inference call is an oracle value (`InferResponse`):
  either an exception raised anywhere inside the try block of
  `classify_email` (client construction, network, quota, non-JSON or
  non-object body), or a decoded JSON object with optional fields.
* Per-message behaviour of the environment is a function of the message
  (`MsgEnv`): the inference outcome, whether the Graph tag write
  `assign_category_to_message` raises, and whether field extraction
  raises (which in the source happens exactly when the message carries a
  JSON null in `subject` or in `from`/`emailAddress`, making the
  f-string slice at line 939 or the attribute access at line 936 raise).
* Fallible code returns an explicit result variant (`CycleResult`), and
  each cycle outcome also records the trace of `mark_processed` calls
  (`writes`), so that creation/update of ledger entries is observable.
-/

/-- Wall-clock timestamps, modelled as naturals with their linear order;
the source compares parsed `receivedDateTime` values and
`datetime.utcnow()` results with the usual datetime order. -/
abbrev Time := Nat

/-- A mail item as returned by the Graph fetch. `none` in
`internetMessageId` models a missing or empty identifier (the source
tests `if not message_id`); `none` in `receivedDateTime` models a
missing or empty `receivedDateTime` string (the source tests
`if received_dt_str`); `none` in `subject` and `fromAddress` model the
absent key, for which the source substitutes the defaults
`"(No Subject)"` and `"unknown@example.com"`. -/
structure Message where
  graphId : String
  internetMessageId : Option String
  subject : Option String
  bodyPreview : Option String
  receivedDateTime : Option Time
  fromAddress : Option String
deriving DecidableEq

/-- One value of the `processed_emails` dict, as written by
`mark_processed` (main.py lines 191-197). -/
structure LedgerEntry where
  category : String
  confidence : ℚ
  timestamp : Time
  subject : String
  fromAddr : String
deriving DecidableEq

/-- The `confidence` field of the decoded JSON object: absent (the
source then uses the default 0.0), a number, or a value on which
`float(...)` raises (the payload is its textual form, used in the error
message). -/
inductive JsonNum where
  | missing : JsonNum
  | num : ℚ → JsonNum
  | notFloat : String → JsonNum
deriving DecidableEq

/-- Behaviour of the external inference call as observed by
`classify_email` (classifier.py lines 108-141): `failure` is any raised
exception inside the try block (network, quota, timeout, non-JSON or
non-object response body), recorded with its type name and message;
`success` is a decoded JSON object with its optional three fields. -/
inductive InferResponse where
  | failure (exnName exnMsg : String) : InferResponse
  | success (category : Option String) (confidence : JsonNum)
      (reasoning : Option String) : InferResponse
deriving DecidableEq

/-- The dict returned by `classify_email`. The source guarantees the
`category` and `confidence` keys on every return path; `reasoning` can
be absent when the model reply omitted it, hence an `Option`. -/
structure ClassificationResult where
  category : String
  confidence : ℚ
  reasoning : Option String
deriving DecidableEq

/-- classifier.py lines 19-26. -/
def PRESET_CATEGORIES : List String :=
  ["URGENT", "ACADEMIC", "ADMINISTRATIVE", "SOCIAL", "PROMOTIONAL", "OTHER"]

/-- classifier.py line 151: `max(0.0, min(1.0, confidence))`. -/
def clampConf (q : ℚ) : ℚ := max 0 (min 1 q)

/-- classifier.py lines 84-161. The category validation (lines 144-147)
runs first; note that line 147 formats `result.get('category')` after
line 145 already overwrote it, so the reasoning string is always
`"Invalid category returned: OTHER"`. The confidence conversion
(lines 150-151) runs afterwards; a non-convertible confidence raises
inside the try block and lands in the generic handler (lines 155-161),
like every other exception. -/
def classify_email (resp : InferResponse) : ClassificationResult :=
  match resp with
  | .failure exnName exnMsg =>
      { category := "OTHER", confidence := 0,
        reasoning := some ("Classification failed - " ++ exnName ++ ": " ++ exnMsg) }
  | .success category confidence reasoning =>
      match category with
      | some c =>
          if c ∈ PRESET_CATEGORIES then
            match confidence with
            | .missing =>
                { category := c, confidence := clampConf 0, reasoning := reasoning }
            | .num q =>
                { category := c, confidence := clampConf q, reasoning := reasoning }
            | .notFloat v =>
                { category := "OTHER", confidence := 0,
                  reasoning := some ("Classification failed - ValueError: could not convert string to float: " ++ v) }
          else
            { category := "OTHER", confidence := clampConf 0,
              reasoning := some "Invalid category returned: OTHER" }
      | none =>
          { category := "OTHER", confidence := clampConf 0,
            reasoning := some "Invalid category returned: OTHER" }

/-- The in-memory store the cycle depends on across ticks
(main.py lines 57-58): the processed-emails ledger and the watermark. -/
structure AppState where
  processed_emails : List (String × LedgerEntry)
  last_check_time : Option Time
deriving DecidableEq

/-- Python dict assignment `d[k] = v`: replace in place when the key is
present (its position is kept), append otherwise. -/
def dictInsert (d : List (String × LedgerEntry)) (k : String) (v : LedgerEntry) :
    List (String × LedgerEntry) :=
  if d.any (fun p => decide (p.1 = k)) then
    d.map (fun p => if p.1 = k then (k, v) else p)
  else d ++ [(k, v)]

/-- Python dict key read `d[k]` / `d.get(k)` for an association list
with unique keys. -/
def dictGet : List (String × LedgerEntry) → String → Option LedgerEntry
  | [], _ => none
  | p :: d, k => if p.1 = k then some p.2 else dictGet d k

/-- main.py lines 161-171: `message_id in processed_emails`. -/
def is_processed (ledger : List (String × LedgerEntry)) (message_id : String) : Bool :=
  ledger.any (fun p => decide (p.1 = message_id))

/-- main.py lines 174-198: store the classification result under the
stable identifier; `now` stands for the `datetime.utcnow()` read inside
the function (line 194). -/
def mark_processed (ledger : List (String × LedgerEntry))
    (message_id category : String) (confidence : ℚ)
    (subject from_email : String) (now : Time) : List (String × LedgerEntry) :=
  dictInsert ledger message_id
    { category := category, confidence := confidence, timestamp := now,
      subject := subject, fromAddr := from_email }

/-- main.py lines 885-902: when the watermark is set, keep exactly the
fetched messages with a present, nonempty `receivedDateTime` strictly
greater than the watermark; when it is unset, the block is skipped and
every fetched message is kept. -/
def filterNewMessages (last_check : Option Time) (messages : List Message) :
    List Message :=
  match last_check with
  | none => messages
  | some w =>
      messages.filter (fun m =>
        match m.receivedDateTime with
        | some t => decide (w < t)
        | none => false)

/-- main.py lines 904-918: drop messages without a usable stable
identifier and messages whose identifier is already in the ledger. -/
def filterUnprocessed (ledger : List (String × LedgerEntry))
    (messages : List Message) : List Message :=
  messages.filter (fun m =>
    match m.internetMessageId with
    | none => false
    | some mid => !(is_processed ledger mid))

/-- Environment behaviour for one message: the inference-call outcome
consumed by `classify_email`, whether `assign_category_to_message`
succeeds (a raised tag write is caught at main.py lines 959-962), and
whether field extraction raises (a JSON null in `subject` or
`from`/`emailAddress` makes lines 936-939 raise before classification;
the outer handler at lines 988-992 then skips the message). -/
structure MsgEnv where
  inferResp : InferResponse
  tagOk : Bool
  extractExn : Bool

/-- One element of the `emails` list of the returned summary
(main.py lines 977-983). -/
structure EmailInfo where
  id : String
  subject : String
  category : String
  confidence : ℚ
  receivedDateTime : Option Time
deriving DecidableEq

/-- main.py line 974: `category_counts.get(category, 0) + 1`. -/
def counterIncr (counts : List (String × Nat)) (k : String) : List (String × Nat) :=
  if counts.any (fun p => decide (p.1 = k)) then
    counts.map (fun p => if p.1 = k then (p.1, p.2 + 1) else p)
  else counts ++ [(k, 1)]

/-- Accumulator of the per-message loop (main.py lines 920-992), plus
the clock-read position and the instrumentation trace of
`mark_processed` calls. -/
structure LoopAcc where
  ledger : List (String × LedgerEntry)
  tick : Nat
  processedCount : Nat
  categoryCounts : List (String × Nat)
  emailsInfo : List EmailInfo
  writes : List (String × LedgerEntry)

/-- The body of the per-message loop (main.py lines 925-992). A raised
field extraction skips the message entirely (outer handler, lines
988-992). The `none` identifier branch is unreachable from the cycle
because `filterUnprocessed` already removed such messages; it skips. A
failed tag write is caught (lines 959-962) and the ledger write still
happens, so `tagOk` does not influence the outcome. -/
def processOne (env : Message → MsgEnv) (clock : Nat → Time) (acc : LoopAcc)
    (msg : Message) : LoopAcc :=
  if (env msg).extractExn then acc
  else
    match msg.internetMessageId with
    | none => acc
    | some mid =>
        let subject := msg.subject.getD "(No Subject)"
        let from_email := msg.fromAddress.getD "unknown@example.com"
        let classification := classify_email (env msg).inferResp
        let _tagWriteOk := (env msg).tagOk
        let entry : LedgerEntry :=
          { category := classification.category,
            confidence := classification.confidence,
            timestamp := clock acc.tick, subject := subject,
            fromAddr := from_email }
        { ledger := mark_processed acc.ledger mid classification.category
            classification.confidence subject from_email (clock acc.tick)
          tick := acc.tick + 1
          processedCount := acc.processedCount + 1
          categoryCounts := counterIncr acc.categoryCounts classification.category
          emailsInfo := acc.emailsInfo ++
            [{ id := msg.graphId, subject := subject,
               category := classification.category,
               confidence := classification.confidence,
               receivedDateTime := msg.receivedDateTime }]
          writes := acc.writes ++ [(mid, entry)] }

/-- Outcome of the fetch step (`get_messages`): the page of messages, or
a raised authentication/network error with its message. -/
inductive FetchResult where
  | ok (messages : List Message) : FetchResult
  | err (msg : String) : FetchResult

/-- The summary dict returned by the cycle (main.py lines 1003-1009). -/
structure CycleSummary where
  processed : Nat
  lastCheck : Option Time
  newCheck : Time
  categories : List (String × Nat)
  emails : List EmailInfo
deriving DecidableEq

/-- Result of one cycle invocation: the summary, or the exception
re-raised at main.py line 883. -/
inductive CycleResult where
  | ok (s : CycleSummary) : CycleResult
  | error (msg : String) : CycleResult
deriving DecidableEq

/-- Full observable outcome of one invocation: the store afterwards, the
returned summary or raised error, the trace of `mark_processed` calls,
and the clock-read position afterwards. -/
structure CycleOutcome where
  state : AppState
  result : CycleResult
  writes : List (String × LedgerEntry)
  tick : Nat

/-- main.py lines 841-1009. On a fetch failure the function re-raises
(line 883) with the store untouched and no ledger write. Otherwise it
filters by watermark, filters out processed identifiers, runs the
per-message loop, reads the clock once more (line 995,
`datetime.utcnow()` after the loop), stores it as the new watermark and
returns the summary. -/
def process_new_emails_internal (env : Message → MsgEnv) (clock : Nat → Time)
    (tick0 : Nat) (fetch : FetchResult) (st : AppState) : CycleOutcome :=
  match fetch with
  | .err e =>
      { state := st, result := .error ("Failed to fetch emails: " ++ e),
        writes := [], tick := tick0 }
  | .ok messages =>
      let previousCheck := st.last_check_time
      let newMessages := filterNewMessages st.last_check_time messages
      let unprocessedMessages := filterUnprocessed st.processed_emails newMessages
      let acc0 : LoopAcc :=
        { ledger := st.processed_emails, tick := tick0, processedCount := 0,
          categoryCounts := [], emailsInfo := [], writes := [] }
      let acc := unprocessedMessages.foldl (processOne env clock) acc0
      let currentTime := clock acc.tick
      { state := { processed_emails := acc.ledger,
                   last_check_time := some currentTime }
        result := .ok
          { processed := acc.processedCount, lastCheck := previousCheck,
            newCheck := currentTime, categories := acc.categoryCounts,
            emails := acc.emailsInfo }
        writes := acc.writes
        tick := acc.tick + 1 }

/-- A sequence of cycle invocations against one shared store and one
clock: each element supplies the per-message environment and the fetch
outcome of that cycle. Returns the final store, the final clock-read
position, and the concatenated trace of `mark_processed` calls. -/
def runCycles (clock : Nat → Time)
    (inputs : List ((Message → MsgEnv) × FetchResult))
    (st : AppState) (tick : Nat) :
    AppState × Nat × List (String × LedgerEntry) :=
  match inputs with
  | [] => (st, tick, [])
  | i :: rest =>
      let out := process_new_emails_internal i.1 clock tick i.2 st
      let r := runCycles clock rest out.state out.tick
      (r.1, r.2.1, out.writes ++ r.2.2)

/-- Replay of a write trace on a dict. -/
def applyLog (d : List (String × LedgerEntry))
    (ws : List (String × LedgerEntry)) : List (String × LedgerEntry) :=
  ws.foldl (fun acc p => dictInsert acc p.1 p.2) d

/-- The stable identifiers the per-message loop actually writes, in
order: messages whose extraction does not raise, keeping their
identifiers. -/
def wkeys (env : Message → MsgEnv) (msgs : List Message) : List String :=
  (msgs.filter (fun m => !(env m).extractExn)).filterMap Message.internetMessageId

/-- The stable identifiers present in a fetched batch. -/
def batchKeys (fetch : FetchResult) : List String :=
  match fetch with
  | .ok messages => messages.filterMap Message.internetMessageId
  | .err _ => []


/-- Keys of the ledger dict, in insertion order. -/
def ledgerKeys (d : List (String × LedgerEntry)) : List String := d.map Prod.fst

lemma ledgerKeys_cons (p : String × LedgerEntry) (d : List (String × LedgerEntry)) :
    ledgerKeys (p :: d) = p.1 :: ledgerKeys d := rfl

lemma any_key_iff (d : List (String × LedgerEntry)) (k : String) :
    (d.any (fun p => decide (p.1 = k))) = true ↔ k ∈ ledgerKeys d := by
  simp [ledgerKeys, List.any_eq_true, List.mem_map]

lemma is_processed_iff (d : List (String × LedgerEntry)) (k : String) :
    is_processed d k = true ↔ k ∈ ledgerKeys d := any_key_iff d k

lemma dictGet_replace_of_ne (d : List (String × LedgerEntry)) (k a : String)
    (v : LedgerEntry) (h : ¬ k = a) :
    dictGet (d.map (fun p => if p.1 = k then (k, v) else p)) a = dictGet d a := by
  induction d with
  | nil => rfl
  | cons p d ih =>
      by_cases hp : p.1 = k
      · have hpa : ¬ p.1 = a := by rw [hp]; exact h
        simp [dictGet, hp, h, hpa, ih]
      · simp only [List.map_cons, if_neg hp, dictGet]
        by_cases hpa : p.1 = a
        · simp [hpa]
        · simp [hpa, ih]

lemma dictGet_replace_self (d : List (String × LedgerEntry)) (k : String)
    (v : LedgerEntry) (h : k ∈ ledgerKeys d) :
    dictGet (d.map (fun p => if p.1 = k then (k, v) else p)) k = some v := by
  induction d with
  | nil => simp [ledgerKeys] at h
  | cons p d ih =>
      by_cases hp : p.1 = k
      · simp [dictGet, hp]
      · have h' : k ∈ ledgerKeys d := by
          rw [ledgerKeys_cons, List.mem_cons] at h
          exact h.resolve_left (fun hh => hp hh.symm)
        simp only [List.map_cons, if_neg hp, dictGet]
        exact ih h'

lemma dictGet_append_single (d : List (String × LedgerEntry)) (k a : String)
    (v : LedgerEntry) (h : k ∉ ledgerKeys d) :
    dictGet (d ++ [(k, v)]) a = if k = a then some v else dictGet d a := by
  induction d with
  | nil => simp [dictGet]
  | cons p d ih =>
      have h' : k ∉ ledgerKeys d := fun hh =>
        h (by rw [ledgerKeys_cons, List.mem_cons]; exact Or.inr hh)
      have hp : ¬ p.1 = k := fun hh =>
        h (by rw [ledgerKeys_cons, List.mem_cons]; exact Or.inl hh.symm)
      simp only [List.cons_append, dictGet]
      by_cases hpa : p.1 = a
      · have hka : ¬ k = a := fun hh => hp (by rw [hh, hpa])
        simp [hpa, hka]
      · simp [hpa, ih h']

lemma dictGet_dictInsert (d : List (String × LedgerEntry)) (k a : String)
    (v : LedgerEntry) :
    dictGet (dictInsert d k v) a = if k = a then some v else dictGet d a := by
  unfold dictInsert
  by_cases hmem : k ∈ ledgerKeys d
  · rw [if_pos ((any_key_iff d k).mpr hmem)]
    by_cases hka : k = a
    · subst hka; simp [dictGet_replace_self d k v hmem]
    · rw [dictGet_replace_of_ne d k a v hka, if_neg hka]
  · rw [if_neg (fun hh => hmem ((any_key_iff d k).mp hh)),
      dictGet_append_single d k a v hmem]

lemma ledgerKeys_dictInsert (d : List (String × LedgerEntry)) (k : String)
    (v : LedgerEntry) :
    ledgerKeys (dictInsert d k v) =
      if k ∈ ledgerKeys d then ledgerKeys d else ledgerKeys d ++ [k] := by
  unfold dictInsert
  by_cases hmem : k ∈ ledgerKeys d
  · rw [if_pos ((any_key_iff d k).mpr hmem), if_pos hmem]
    simp only [ledgerKeys, List.map_map]
    refine List.map_congr_left (fun p _ => ?_)
    by_cases hp : p.1 = k
    · simp [Function.comp, hp]
    · simp [Function.comp, hp]
  · rw [if_neg (fun hh => hmem ((any_key_iff d k).mp hh)), if_neg hmem]
    simp [ledgerKeys]

lemma mem_ledgerKeys_dictInsert (d : List (String × LedgerEntry)) (k a : String)
    (v : LedgerEntry) :
    a ∈ ledgerKeys (dictInsert d k v) ↔ a ∈ ledgerKeys d ∨ a = k := by
  rw [ledgerKeys_dictInsert]
  by_cases hmem : k ∈ ledgerKeys d
  · simp only [if_pos hmem]
    constructor
    · exact Or.inl
    · rintro (h | rfl)
      · exact h
      · exact hmem
  · simp [if_neg hmem]

lemma nodup_ledgerKeys_dictInsert (d : List (String × LedgerEntry)) (k : String)
    (v : LedgerEntry) (h : (ledgerKeys d).Nodup) :
    (ledgerKeys (dictInsert d k v)).Nodup := by
  rw [ledgerKeys_dictInsert]
  by_cases hmem : k ∈ ledgerKeys d
  · simpa [if_pos hmem] using h
  · rw [if_neg hmem]
    simp [List.nodup_append, h, hmem]

lemma applyLog_nil (d : List (String × LedgerEntry)) : applyLog d [] = d := rfl

lemma applyLog_cons (d : List (String × LedgerEntry)) (p : String × LedgerEntry)
    (ws : List (String × LedgerEntry)) :
    applyLog d (p :: ws) = applyLog (dictInsert d p.1 p.2) ws := rfl

lemma applyLog_append (d : List (String × LedgerEntry))
    (ws₁ ws₂ : List (String × LedgerEntry)) :
    applyLog d (ws₁ ++ ws₂) = applyLog (applyLog d ws₁) ws₂ := by
  simp [applyLog, List.foldl_append]

lemma mem_ledgerKeys_applyLog (d : List (String × LedgerEntry))
    (ws : List (String × LedgerEntry)) (a : String) :
    a ∈ ledgerKeys (applyLog d ws) ↔ a ∈ ledgerKeys d ∨ a ∈ ws.map Prod.fst := by
  induction ws generalizing d with
  | nil => simp [applyLog_nil]
  | cons p ws ih =>
      rw [applyLog_cons, ih]
      simp only [List.map_cons, List.mem_cons]
      rw [mem_ledgerKeys_dictInsert]
      tauto

lemma nodup_ledgerKeys_applyLog (d : List (String × LedgerEntry))
    (ws : List (String × LedgerEntry)) (h : (ledgerKeys d).Nodup) :
    (ledgerKeys (applyLog d ws)).Nodup := by
  induction ws generalizing d with
  | nil => simpa [applyLog_nil] using h
  | cons p ws ih =>
      rw [applyLog_cons]
      exact ih _ (nodup_ledgerKeys_dictInsert d p.1 p.2 h)

lemma dictGet_applyLog_of_not_mem (d : List (String × LedgerEntry))
    (ws : List (String × LedgerEntry)) (a : String) (h : a ∉ ws.map Prod.fst) :
    dictGet (applyLog d ws) a = dictGet d a := by
  induction ws generalizing d with
  | nil => rfl
  | cons p ws ih =>
      have h' : a ∉ ws.map Prod.fst := fun hh => h (by simp [hh])
      have hp : ¬ p.1 = a := fun hh => h (by simp [hh])
      rw [applyLog_cons, ih _ h', dictGet_dictInsert, if_neg hp]

lemma dictGet_applyLog_of_mem (d : List (String × LedgerEntry))
    (ws : List (String × LedgerEntry)) (k : String) (v : LedgerEntry)
    (hnd : (ws.map Prod.fst).Nodup) (h : (k, v) ∈ ws) :
    dictGet (applyLog d ws) k = some v := by
  induction ws generalizing d with
  | nil => simp at h
  | cons p ws ih =>
      rw [List.map_cons, List.nodup_cons] at hnd
      rcases List.mem_cons.mp h with rfl | hmem
      · rw [applyLog_cons, dictGet_applyLog_of_not_mem _ _ _ hnd.1,
          dictGet_dictInsert, if_pos rfl]
      · rw [applyLog_cons]
        exact ih _ hnd.2 hmem

/-- The ledger entry built by the loop body for a message at clock-read
position `tick`. -/
def procEntry (env : Message → MsgEnv) (clock : Nat → Time) (tick : Nat)
    (m : Message) : LedgerEntry :=
  { category := (classify_email (env m).inferResp).category,
    confidence := (classify_email (env m).inferResp).confidence,
    timestamp := clock tick,
    subject := m.subject.getD "(No Subject)",
    fromAddr := m.fromAddress.getD "unknown@example.com" }

lemma processOne_exn (env : Message → MsgEnv) (clock : Nat → Time)
    (acc : LoopAcc) (m : Message) (hexn : (env m).extractExn = true) :
    processOne env clock acc m = acc := by
  simp [processOne, hexn]

lemma processOne_noid (env : Message → MsgEnv) (clock : Nat → Time)
    (acc : LoopAcc) (m : Message) (hexn : (env m).extractExn = false)
    (hid : m.internetMessageId = none) :
    processOne env clock acc m = acc := by
  simp [processOne, hexn, hid]

lemma processOne_some (env : Message → MsgEnv) (clock : Nat → Time)
    (acc : LoopAcc) (m : Message) (mid : String)
    (hexn : (env m).extractExn = false) (hid : m.internetMessageId = some mid) :
    processOne env clock acc m =
      { ledger := dictInsert acc.ledger mid (procEntry env clock acc.tick m),
        tick := acc.tick + 1,
        processedCount := acc.processedCount + 1,
        categoryCounts :=
          counterIncr acc.categoryCounts (classify_email (env m).inferResp).category,
        emailsInfo := acc.emailsInfo ++
          [{ id := m.graphId, subject := m.subject.getD "(No Subject)",
             category := (classify_email (env m).inferResp).category,
             confidence := (classify_email (env m).inferResp).confidence,
             receivedDateTime := m.receivedDateTime }],
        writes := acc.writes ++ [(mid, procEntry env clock acc.tick m)] } := by
  simp [processOne, hexn, hid, mark_processed, procEntry]

lemma wkeys_nil (env : Message → MsgEnv) : wkeys env [] = [] := rfl

lemma wkeys_cons_exn (env : Message → MsgEnv) (m : Message) (U : List Message)
    (hexn : (env m).extractExn = true) :
    wkeys env (m :: U) = wkeys env U := by
  simp [wkeys, List.filter_cons, hexn]

lemma wkeys_cons_noid (env : Message → MsgEnv) (m : Message) (U : List Message)
    (hexn : (env m).extractExn = false) (hid : m.internetMessageId = none) :
    wkeys env (m :: U) = wkeys env U := by
  simp [wkeys, List.filter_cons, hexn, List.filterMap_cons, hid]

lemma wkeys_cons_some (env : Message → MsgEnv) (m : Message) (U : List Message)
    (mid : String) (hexn : (env m).extractExn = false)
    (hid : m.internetMessageId = some mid) :
    wkeys env (m :: U) = mid :: wkeys env U := by
  simp [wkeys, List.filter_cons, hexn, List.filterMap_cons, hid]

/-- Characterization of the per-message loop: running the loop over a
batch `U` appends, to the trace and the ledger, one write per message of
`U` whose extraction does not raise, keyed by that message's identifier
and in batch order; the processed count and the clock-read position grow
by the number of writes. -/
lemma foldl_processOne_spec (env : Message → MsgEnv) (clock : Nat → Time)
    (U : List Message) :
    ∀ acc : LoopAcc,
    ∃ ws : List (String × LedgerEntry),
      (U.foldl (processOne env clock) acc).writes = acc.writes ++ ws ∧
      ws.map Prod.fst = wkeys env U ∧
      (U.foldl (processOne env clock) acc).ledger = applyLog acc.ledger ws ∧
      (U.foldl (processOne env clock) acc).processedCount
        = acc.processedCount + ws.length ∧
      (U.foldl (processOne env clock) acc).tick = acc.tick + ws.length := by
  induction U with
  | nil =>
      intro acc
      exact ⟨[], by simp [wkeys_nil, applyLog_nil]⟩
  | cons m U ih =>
      intro acc
      rw [List.foldl_cons]
      by_cases hexn : (env m).extractExn
      · rw [processOne_exn env clock acc m hexn]
        obtain ⟨ws, h1, h2, h3, h4, h5⟩ := ih acc
        exact ⟨ws, h1, by rw [wkeys_cons_exn env m U hexn]; exact h2, h3, h4, h5⟩
      · have hexn' : (env m).extractExn = false := by simpa using hexn
        cases hid : m.internetMessageId with
        | none =>
            rw [processOne_noid env clock acc m hexn' hid]
            obtain ⟨ws, h1, h2, h3, h4, h5⟩ := ih acc
            exact ⟨ws, h1,
              by rw [wkeys_cons_noid env m U hexn' hid]; exact h2, h3, h4, h5⟩
        | some mid =>
            rw [processOne_some env clock acc m mid hexn' hid]
            obtain ⟨ws, h1, h2, h3, h4, h5⟩ :=
              ih { ledger := dictInsert acc.ledger mid (procEntry env clock acc.tick m),
                   tick := acc.tick + 1,
                   processedCount := acc.processedCount + 1,
                   categoryCounts :=
                     counterIncr acc.categoryCounts
                       (classify_email (env m).inferResp).category,
                   emailsInfo := acc.emailsInfo ++
                     [{ id := m.graphId, subject := m.subject.getD "(No Subject)",
                        category := (classify_email (env m).inferResp).category,
                        confidence := (classify_email (env m).inferResp).confidence,
                        receivedDateTime := m.receivedDateTime }],
                   writes := acc.writes ++ [(mid, procEntry env clock acc.tick m)] }
            refine ⟨(mid, procEntry env clock acc.tick m) :: ws, ?_, ?_, ?_, ?_, ?_⟩
            · rw [h1]; simp
            · rw [List.map_cons, wkeys_cons_some env m U mid hexn' hid, h2]
            · rw [h3, applyLog_cons]
            · rw [h4]; simp; omega
            · rw [h5]; simp; omega

/-- The batch the per-message loop runs over: fetched messages that
survive the watermark filter and the already-processed filter. -/
def cycleBatch (st : AppState) (msgs : List Message) : List Message :=
  filterUnprocessed st.processed_emails (filterNewMessages st.last_check_time msgs)

lemma cycle_err_eq (env : Message → MsgEnv) (clock : Nat → Time) (t0 : Nat)
    (e : String) (st : AppState) :
    process_new_emails_internal env clock t0 (.err e) st =
      { state := st, result := .error ("Failed to fetch emails: " ++ e),
        writes := [], tick := t0 } := rfl

/-- Characterization of a cycle whose fetch succeeds: there is a write
trace `ws`, keyed exactly by the identifiers of the loop batch messages
whose extraction does not raise, such that the outcome is: the ledger
with `ws` applied, the watermark set to the clock read after the loop,
the summary reporting the number of writes, and the clock position
advanced accordingly. -/
lemma cycle_ok_spec (env : Message → MsgEnv) (clock : Nat → Time) (t0 : Nat)
    (msgs : List Message) (st : AppState) :
    ∃ (ws : List (String × LedgerEntry)) (cats : List (String × Nat))
      (infos : List EmailInfo),
      process_new_emails_internal env clock t0 (.ok msgs) st =
        { state := { processed_emails := applyLog st.processed_emails ws,
                     last_check_time := some (clock (t0 + ws.length)) },
          result := .ok
            { processed := ws.length, lastCheck := st.last_check_time,
              newCheck := clock (t0 + ws.length), categories := cats,
              emails := infos },
          writes := ws, tick := t0 + ws.length + 1 } ∧
      ws.map Prod.fst = wkeys env (cycleBatch st msgs) := by
  obtain ⟨ws, h1, h2, h3, h4, h5⟩ :=
    foldl_processOne_spec env clock (cycleBatch st msgs)
      { ledger := st.processed_emails, tick := t0, processedCount := 0,
        categoryCounts := [], emailsInfo := [], writes := [] }
  refine ⟨ws,
    ((cycleBatch st msgs).foldl (processOne env clock)
      { ledger := st.processed_emails, tick := t0, processedCount := 0,
        categoryCounts := [], emailsInfo := [], writes := [] }).categoryCounts,
    ((cycleBatch st msgs).foldl (processOne env clock)
      { ledger := st.processed_emails, tick := t0, processedCount := 0,
        categoryCounts := [], emailsInfo := [], writes := [] }).emailsInfo,
    ?_, h2⟩
  show
    (let acc := (cycleBatch st msgs).foldl (processOne env clock)
        { ledger := st.processed_emails, tick := t0, processedCount := 0,
          categoryCounts := [], emailsInfo := [], writes := [] }
     ({ state := { processed_emails := acc.ledger,
                   last_check_time := some (clock acc.tick) },
        result := .ok
          { processed := acc.processedCount, lastCheck := st.last_check_time,
            newCheck := clock acc.tick, categories := acc.categoryCounts,
            emails := acc.emailsInfo },
        writes := acc.writes, tick := acc.tick + 1 } : CycleOutcome)) = _
  simp only []
  rw [List.nil_append] at h1
  rw [h1, h3, h4, h5]
  simp

lemma filterNewMessages_none (msgs : List Message) :
    filterNewMessages none msgs = msgs := rfl

lemma mem_filterNewMessages_some (w : Time) (msgs : List Message) (m : Message) :
    m ∈ filterNewMessages (some w) msgs ↔
      m ∈ msgs ∧ ∃ t, m.receivedDateTime = some t ∧ w < t := by
  simp only [filterNewMessages, List.mem_filter]
  constructor
  · rintro ⟨hm, hp⟩
    refine ⟨hm, ?_⟩
    cases hrd : m.receivedDateTime with
    | none => rw [hrd] at hp; simp at hp
    | some t => rw [hrd] at hp; exact ⟨t, rfl, by simpa using hp⟩
  · rintro ⟨hm, t, hrd, hlt⟩
    exact ⟨hm, by rw [hrd]; simpa using hlt⟩

lemma mem_filterUnprocessed (L : List (String × LedgerEntry))
    (msgs : List Message) (m : Message) :
    m ∈ filterUnprocessed L msgs ↔
      m ∈ msgs ∧ ∃ mid, m.internetMessageId = some mid ∧
        is_processed L mid = false := by
  simp only [filterUnprocessed, List.mem_filter]
  constructor
  · rintro ⟨hm, hp⟩
    refine ⟨hm, ?_⟩
    cases hid : m.internetMessageId with
    | none => rw [hid] at hp; simp at hp
    | some mid =>
        rw [hid] at hp
        exact ⟨mid, rfl, by simpa using hp⟩
  · rintro ⟨hm, mid, hid, hnp⟩
    exact ⟨hm, by rw [hid]; simpa using hnp⟩

lemma filterNewMessages_sublist (lct : Option Time) (msgs : List Message) :
    (filterNewMessages lct msgs).Sublist msgs := by
  cases lct with
  | none => exact List.Sublist.refl msgs
  | some w => exact List.filter_sublist msgs

lemma filterUnprocessed_sublist (L : List (String × LedgerEntry))
    (msgs : List Message) : (filterUnprocessed L msgs).Sublist msgs :=
  List.filter_sublist msgs

lemma cycleBatch_sublist (st : AppState) (msgs : List Message) :
    (cycleBatch st msgs).Sublist msgs :=
  (filterUnprocessed_sublist _ _).trans (filterNewMessages_sublist _ _)

lemma wkeys_sublist (env : Message → MsgEnv) (U msgs : List Message)
    (h : U.Sublist msgs) :
    (wkeys env U).Sublist (msgs.filterMap Message.internetMessageId) :=
  ((List.filter_sublist U).trans h).filterMap Message.internetMessageId

lemma wkeys_cycleBatch_nodup (env : Message → MsgEnv) (st : AppState)
    (msgs : List Message)
    (h : (msgs.filterMap Message.internetMessageId).Nodup) :
    (wkeys env (cycleBatch st msgs)).Nodup :=
  (wkeys_sublist env (cycleBatch st msgs) msgs (cycleBatch_sublist st msgs)).nodup h

lemma mem_cycleBatch_id (st : AppState) (msgs : List Message) (m : Message)
    (hm : m ∈ cycleBatch st msgs) :
    ∃ mid, m.internetMessageId = some mid ∧
      is_processed st.processed_emails mid = false := by
  rcases (mem_filterUnprocessed _ _ _).mp hm with ⟨_, mid, hid, hnp⟩
  exact ⟨mid, hid, hnp⟩

lemma wkeys_cycleBatch_not_processed (env : Message → MsgEnv) (st : AppState)
    (msgs : List Message) (k : String)
    (hk : k ∈ wkeys env (cycleBatch st msgs)) :
    is_processed st.processed_emails k = false := by
  rcases List.mem_filterMap.mp hk with ⟨m, hmf, hid⟩
  have hm : m ∈ cycleBatch st msgs := List.mem_of_mem_filter hmf
  rcases mem_cycleBatch_id st msgs m hm with ⟨mid, hid', hnp⟩
  rw [hid'] at hid
  cases hid
  exact hnp

lemma runCycles_nil (clock : Nat → Time) (st : AppState) (tick : Nat) :
    runCycles clock [] st tick = (st, tick, []) := rfl

lemma runCycles_cons (clock : Nat → Time)
    (i : (Message → MsgEnv) × FetchResult)
    (rest : List ((Message → MsgEnv) × FetchResult)) (st : AppState) (tick : Nat) :
    runCycles clock (i :: rest) st tick =
      ((runCycles clock rest (process_new_emails_internal i.1 clock tick i.2 st).state
          (process_new_emails_internal i.1 clock tick i.2 st).tick).1,
       (runCycles clock rest (process_new_emails_internal i.1 clock tick i.2 st).state
          (process_new_emails_internal i.1 clock tick i.2 st).tick).2.1,
       (process_new_emails_internal i.1 clock tick i.2 st).writes ++
         (runCycles clock rest (process_new_emails_internal i.1 clock tick i.2 st).state
            (process_new_emails_internal i.1 clock tick i.2 st).tick).2.2) := rfl

/-- Invariant of a sequence of cycles, provided every fetched batch
carries pairwise-distinct stable identifiers: the final ledger is the
initial one with the global write trace applied, the global trace writes
every identifier at most once, and an identifier already present in the
ledger at the start is never written. -/
lemma runCycles_spec (clock : Nat → Time)
    (inputs : List ((Message → MsgEnv) × FetchResult)) :
    ∀ (st : AppState) (tick : Nat),
      (∀ i ∈ inputs, (batchKeys i.2).Nodup) →
      (runCycles clock inputs st tick).1.processed_emails
          = applyLog st.processed_emails (runCycles clock inputs st tick).2.2 ∧
      ((runCycles clock inputs st tick).2.2.map Prod.fst).Nodup ∧
      (∀ k, k ∈ ledgerKeys st.processed_emails →
        k ∉ (runCycles clock inputs st tick).2.2.map Prod.fst) := by
  induction inputs with
  | nil =>
      intro st tick _
      simp [runCycles_nil, applyLog_nil]
  | cons i rest ih =>
      intro st tick h
      have hrest : ∀ j ∈ rest, (batchKeys j.2).Nodup :=
        fun j hj => h j (List.mem_cons_of_mem _ hj)
      obtain ⟨env, fetch⟩ := i
      cases fetch with
      | err e =>
          rw [runCycles_cons]
          simp only [cycle_err_eq]
          obtain ⟨ih1, ih2, ih3⟩ := ih st tick hrest
          exact ⟨by simpa using ih1, by simpa using ih2,
            fun k hk => by simpa using ih3 k hk⟩
      | ok msgs =>
          have hbatch : (msgs.filterMap Message.internetMessageId).Nodup :=
            h (env, .ok msgs) (List.mem_cons_self _ _)
          obtain ⟨ws, cats, infos, hout, hkeys⟩ := cycle_ok_spec env clock tick msgs st
          rw [runCycles_cons]
          simp only [hout]
          obtain ⟨ih1, ih2, ih3⟩ :=
            ih { processed_emails := applyLog st.processed_emails ws,
                 last_check_time := some (clock (tick + ws.length)) }
              (tick + ws.length + 1) hrest
          have hwsnd : (ws.map Prod.fst).Nodup := by
            rw [hkeys]; exact wkeys_cycleBatch_nodup env st msgs hbatch
          have hwsnp : ∀ k, k ∈ ws.map Prod.fst →
              is_processed st.processed_emails k = false := by
            intro k hk
            rw [hkeys] at hk
            exact wkeys_cycleBatch_not_processed env st msgs k hk
          refine ⟨?_, ?_, ?_⟩
          · rw [applyLog_append]
            exact ih1
          · rw [List.map_append, List.nodup_append]
            refine ⟨hwsnd, ih2, ?_⟩
            intro k hk
            have hkmem : k ∈ ledgerKeys (applyLog st.processed_emails ws) := by
              rw [mem_ledgerKeys_applyLog]
              exact Or.inr hk
            exact ih3 k hkmem
          · intro k hk
            rw [List.map_append, List.mem_append]
            rintro (hk1 | hk2)
            · have := hwsnp k hk1
              rw [← is_processed_iff] at hk
              rw [hk] at this
              exact absurd this (by simp)
            · have hkmem : k ∈ ledgerKeys (applyLog st.processed_emails ws) := by
                rw [mem_ledgerKeys_applyLog]
                exact Or.inl hk
              exact ih3 k hkmem hk2

/-- Input of one cycle execution in the interleaving model: the page its
fetch returns, the per-message environment, and the wall-clock value its
`datetime.utcnow()` reads return while it runs (a constant-clock
abstraction of the tick clock). -/
structure TaskInput where
  msgs : List Message
  env : Message → MsgEnv
  time : Time

/-- Control state of one in-flight execution of
`process_new_emails_internal`: about to fetch; fetch returned and the
two filter passes are about to read the shared store; iterating the
per-message loop; or returned, remembering the processed count and the
number of ledger writes performed. -/
inductive TaskPC where
  | start : TaskPC
  | fetched (msgs : List Message) : TaskPC
  | looping (pending : List Message) (count : Nat) (written : Nat) : TaskPC
  | finished (count : Nat) (written : Nat) : TaskPC
deriving DecidableEq

/-- One atomic step of one execution against the shared store. Yield
points mirror the source: the fetch and each per-message Graph tag call
are awaited (and the scheduler runs its copy on a separate thread), so
another execution can interleave between the filter pass that reads the
ledger and any later ledger write. -/
def taskStep (inp : TaskInput) (st : AppState) (pc : TaskPC) : AppState × TaskPC :=
  match pc with
  | .start => (st, .fetched inp.msgs)
  | .fetched msgs =>
      (st, .looping
        (filterUnprocessed st.processed_emails
          (filterNewMessages st.last_check_time msgs)) 0 0)
  | .looping [] count written =>
      ({ processed_emails := st.processed_emails,
         last_check_time := some inp.time }, .finished count written)
  | .looping (m :: rest) count written =>
      if (inp.env m).extractExn then (st, .looping rest count written)
      else
        match m.internetMessageId with
        | none => (st, .looping rest count written)
        | some mid =>
            let classification := classify_email (inp.env m).inferResp
            ({ processed_emails :=
                 mark_processed st.processed_emails mid classification.category
                   classification.confidence (m.subject.getD "(No Subject)")
                   (m.fromAddress.getD "unknown@example.com") inp.time,
               last_check_time := st.last_check_time },
             .looping rest (count + 1) (written + 1))
  | .finished count written => (st, .finished count written)

/-- Shared store plus the control state of the two competing
executions: the on-demand HTTP-triggered one and the
scheduler-triggered one. -/
structure SysState where
  shared : AppState
  http : TaskPC
  sched : TaskPC

/-- One scheduling decision: `true` steps the HTTP-triggered execution,
`false` the scheduler-triggered one. -/
def sysStep (hi si : TaskInput) (b : Bool) (s : SysState) : SysState :=
  if b then
    { shared := (taskStep hi s.shared s.http).1,
      http := (taskStep hi s.shared s.http).2, sched := s.sched }
  else
    { shared := (taskStep si s.shared s.sched).1,
      http := s.http, sched := (taskStep si s.shared s.sched).2 }

/-- Run a schedule of interleaved steps. -/
def sysRun (hi si : TaskInput) (sched : List Bool) (s : SysState) : SysState :=
  sched.foldl (fun s b => sysStep hi si b s) s

/-- Run one execution alone for a number of steps. -/
def runTaskAlone (inp : TaskInput) : Nat → AppState × TaskPC → AppState × TaskPC
  | 0, s => s
  | n + 1, s => runTaskAlone inp n (taskStep inp s.1 s.2)

/-- The failure modes of the inference call named by the specification:
a raised exception (network, quota, timeout, malformed or non-JSON
response body), a missing or out-of-set category, or a confidence value
on which the float conversion raises. -/
def inferFailure : InferResponse → Prop
  | .failure _ _ => True
  | .success cat conf _ =>
      (∀ c, cat = some c → c ∉ PRESET_CATEGORIES) ∨ (∃ v, conf = .notFloat v)

lemma clampConf_zero : clampConf 0 = 0 := by
  simp [clampConf]

/-- C3: for every input and every behaviour of the external inference
call, `classify_email` never raises to its caller (the embedding is a
total function, mirroring the try block of classifier.py lines 108-161
whose handler at 155-161 absorbs every exception); on any failure mode
(raised exception, malformed or non-JSON response, missing or invalid
category, non-convertible confidence) it returns the catch-all category
OTHER with confidence 0.0 and a reasoning string naming the failure,
made explicit per failure mode by the last three conjuncts. -/
theorem claim_C3_classify_never_raises_safe_default (resp : InferResponse)
    (h : inferFailure resp) :
    (classify_email resp).category = "OTHER" ∧
    (classify_email resp).confidence = 0 ∧
    (∃ r, (classify_email resp).reasoning = some r) ∧
    (∀ n m, resp = .failure n m →
      (classify_email resp).reasoning
        = some ("Classification failed - " ++ n ++ ": " ++ m)) ∧
    (∀ cat conf r, resp = .success cat conf r →
      (∀ c, cat = some c → c ∉ PRESET_CATEGORIES) →
      (classify_email resp).reasoning = some "Invalid category returned: OTHER") ∧
    (∀ c conf r v, resp = .success (some c) conf r → c ∈ PRESET_CATEGORIES →
      conf = .notFloat v →
      (classify_email resp).reasoning
        = some ("Classification failed - ValueError: could not convert string to float: " ++ v)) := by
  cases resp with
  | failure n m =>
      refine ⟨rfl, rfl, ⟨_, rfl⟩, ?_, ?_, ?_⟩
      · rintro n' m' hh
        cases hh
        rfl
      · rintro _ _ _ hh
        cases hh
      · rintro _ _ _ _ hh
        cases hh
  | success cat conf r =>
      cases cat with
      | none =>
          refine ⟨rfl, by simp [classify_email, clampConf_zero], ⟨_, rfl⟩, ?_, ?_, ?_⟩
          · rintro _ _ hh
            cases hh
          · rintro _ _ _ hh _
            cases hh
            rfl
          · rintro _ _ _ _ hh
            cases hh
      | some c =>
          by_cases hc : c ∈ PRESET_CATEGORIES
          · have hfl : ∃ v, conf = .notFloat v := by
              rcases h with hinv | hfl
              · exact absurd hc (hinv c rfl)
              · exact hfl
            obtain ⟨v, rfl⟩ := hfl
            have hr : (classify_email (.success (some c) (.notFloat v) r)).reasoning
                = some ("Classification failed - ValueError: could not convert string to float: " ++ v) := by
              simp [classify_email, hc]
            refine ⟨?_, ?_, ⟨_, hr⟩, ?_, ?_, ?_⟩
            · simp [classify_email, hc]
            · simp [classify_email, hc]
            · rintro _ _ hh
              cases hh
            · rintro _ _ _ hh hinv
              cases hh
              exact absurd hc (hinv c rfl)
            · rintro c' _ _ v' hh _ hfl'
              cases hh
              cases hfl'
              exact hr
          · have hr : (classify_email (.success (some c) conf r)).reasoning
                = some "Invalid category returned: OTHER" := by
              simp [classify_email, hc]
            refine ⟨?_, ?_, ⟨_, hr⟩, ?_, ?_, ?_⟩
            · simp [classify_email, hc]
            · simp [classify_email, hc, clampConf_zero]
            · rintro _ _ hh
              cases hh
            · rintro _ _ _ hh _
              cases hh
              exact hr
            · rintro c' _ _ _ hh hc' _
              cases hh
              exact absurd hc' hc

/-- Witness for C3 at a concrete simulated timeout exception. -/
theorem claim_C3_witness :
    (classify_email (.failure "TimeoutError" "request timed out")).category
        = "OTHER" ∧
    (classify_email (.failure "TimeoutError" "request timed out")).confidence
        = 0 ∧
    (∃ r, (classify_email (.failure "TimeoutError" "request timed out")).reasoning
        = some r) ∧
    (∀ n m, (InferResponse.failure "TimeoutError" "request timed out")
        = .failure n m →
      (classify_email (.failure "TimeoutError" "request timed out")).reasoning
        = some ("Classification failed - " ++ n ++ ": " ++ m)) ∧
    (∀ cat conf r, (InferResponse.failure "TimeoutError" "request timed out")
        = .success cat conf r →
      (∀ c, cat = some c → c ∉ PRESET_CATEGORIES) →
      (classify_email (.failure "TimeoutError" "request timed out")).reasoning
        = some "Invalid category returned: OTHER") ∧
    (∀ c conf r v, (InferResponse.failure "TimeoutError" "request timed out")
        = .success (some c) conf r → c ∈ PRESET_CATEGORIES →
      conf = .notFloat v →
      (classify_email (.failure "TimeoutError" "request timed out")).reasoning
        = some ("Classification failed - ValueError: could not convert string to float: " ++ v)) :=
  claim_C3_classify_never_raises_safe_default
    (.failure "TimeoutError" "request timed out") trivial

lemma clampConf_nonneg (q : ℚ) : 0 ≤ clampConf q := le_max_left 0 (min 1 q)

lemma clampConf_le_one (q : ℚ) : clampConf q ≤ 1 :=
  max_le (by norm_num) (min_le_left 1 q)

/-- C8: every value returned by `classify_email` carries a category from
the fixed preset set and a confidence clamped into the interval from 0
to 1; moreover any out-of-set category produced by the inference call is
coerced to the catch-all OTHER with confidence forced to 0.0. -/
theorem claim_C8_category_closure (resp : InferResponse) :
    (classify_email resp).category ∈ PRESET_CATEGORIES ∧
    0 ≤ (classify_email resp).confidence ∧
    (classify_email resp).confidence ≤ 1 ∧
    (∀ cat conf r c, resp = .success cat conf r → cat = some c →
      c ∉ PRESET_CATEGORIES →
      (classify_email resp).category = "OTHER" ∧
      (classify_email resp).confidence = 0) := by
  cases resp with
  | failure n m =>
      refine ⟨by simp [classify_email, PRESET_CATEGORIES], by simp [classify_email],
        by simp [classify_email], ?_⟩
      rintro _ _ _ _ hh
      cases hh
  | success cat conf r =>
      cases cat with
      | none =>
          refine ⟨by simp [classify_email, PRESET_CATEGORIES],
            by simp [classify_email, clampConf_nonneg],
            by simp [classify_email, clampConf_le_one], ?_⟩
          rintro _ _ _ _ hh hcat
          cases hh
          cases hcat
      | some c =>
          by_cases hc : c ∈ PRESET_CATEGORIES
          · cases conf with
            | missing =>
                refine ⟨by simp [classify_email, hc],
                  by simp [classify_email, hc, clampConf_nonneg],
                  by simp [classify_email, hc, clampConf_le_one], ?_⟩
                rintro _ _ _ c' hh hcat hc'
                cases hh
                cases hcat
                exact absurd hc hc'
            | num q =>
                refine ⟨by simp [classify_email, hc],
                  by simp [classify_email, hc, clampConf_nonneg],
                  by simp [classify_email, hc, clampConf_le_one], ?_⟩
                rintro _ _ _ c' hh hcat hc'
                cases hh
                cases hcat
                exact absurd hc hc'
            | notFloat v =>
                refine ⟨by simp [classify_email, hc]; decide,
                  by simp [classify_email, hc],
                  by simp [classify_email, hc], ?_⟩
                rintro _ _ _ c' hh hcat hc'
                cases hh
                cases hcat
                exact absurd hc hc'
          · refine ⟨by simp [classify_email, hc]; decide,
              by simp [classify_email, hc, clampConf_zero],
              by simp [classify_email, hc, clampConf_zero], ?_⟩
            rintro _ _ _ c' hh hcat _
            cases hh
            cases hcat
            exact ⟨by simp [classify_email, hc], by simp [classify_email, hc, clampConf_zero]⟩

/-- Witness for C8 at a concrete out-of-set category reply. -/
theorem claim_C8_witness :
    (classify_email (.success (some "SPAM") (.num (9/10)) (some "looks like spam"))).category
        ∈ PRESET_CATEGORIES ∧
    0 ≤ (classify_email (.success (some "SPAM") (.num (9/10)) (some "looks like spam"))).confidence ∧
    (classify_email (.success (some "SPAM") (.num (9/10)) (some "looks like spam"))).confidence ≤ 1 ∧
    (∀ cat conf r c,
      (InferResponse.success (some "SPAM") (.num (9/10)) (some "looks like spam"))
          = .success cat conf r →
      cat = some c → c ∉ PRESET_CATEGORIES →
      (classify_email (.success (some "SPAM") (.num (9/10)) (some "looks like spam"))).category
          = "OTHER" ∧
      (classify_email (.success (some "SPAM") (.num (9/10)) (some "looks like spam"))).confidence
          = 0) :=
  claim_C8_category_closure (.success (some "SPAM") (.num (9/10)) (some "looks like spam"))

/-- C5: when the fetch step raises (authentication or network error),
the whole cycle aborts with an error (the re-raise at main.py line 883),
the store is exactly as before (same ledger, same watermark), and no
`mark_processed` call happens (empty write trace, watermark read
position unchanged). -/
theorem claim_C5_fetch_failure_aborts_cleanly (env : Message → MsgEnv)
    (clock : Nat → Time) (t0 : Nat) (e : String) (st : AppState) :
    (process_new_emails_internal env clock t0 (.err e) st).state = st ∧
    (process_new_emails_internal env clock t0 (.err e) st).writes = [] ∧
    (process_new_emails_internal env clock t0 (.err e) st).result
        = .error ("Failed to fetch emails: " ++ e) ∧
    (process_new_emails_internal env clock t0 (.err e) st).state.last_check_time
        = st.last_check_time ∧
    (process_new_emails_internal env clock t0 (.err e) st).state.processed_emails
        = st.processed_emails :=
  ⟨rfl, rfl, rfl, rfl, rfl⟩

/-- C7: the watermark filter of the cycle (main.py lines 885-902) keeps,
when the watermark is set, exactly the fetched messages whose
received-time is present and strictly greater than the watermark, and
keeps every fetched message when the watermark is unset (first cycle). -/
theorem claim_C7_watermark_filter (msgs : List Message) :
    (∀ w m, m ∈ filterNewMessages (some w) msgs ↔
      m ∈ msgs ∧ ∃ t, m.receivedDateTime = some t ∧ w < t) ∧
    filterNewMessages none msgs = msgs :=
  ⟨fun w m => mem_filterNewMessages_some w msgs m, rfl⟩

/-- Concrete message used by the C7 witness. -/
def c7msg : Message :=
  { graphId := "g7", internetMessageId := some "M7", subject := some "s",
    bodyPreview := some "b", receivedDateTime := some 7,
    fromAddress := some "a@b.c" }

/-- Witness for C7: a message received at time 7 is kept by the filter
with watermark 5, and the unset-watermark filter keeps the whole
batch. -/
theorem claim_C7_witness :
    c7msg ∈ filterNewMessages (some 5) [c7msg] ∧
    filterNewMessages none [c7msg] = [c7msg] :=
  ⟨((claim_C7_watermark_filter [c7msg]).1 5 c7msg).mpr
      ⟨List.mem_singleton.mpr rfl, 7, rfl, by decide⟩,
   (claim_C7_watermark_filter [c7msg]).2⟩

/-- C4 (amended): a cycle whose fetch succeeds always sets the watermark
to a single wall-clock read - the one taken after all messages have been
attempted (main.py line 995), which is read position start-plus-processed,
not the cycle-start value and not a per-message value - and this
assignment happens even when zero messages were newly processed. -/
theorem claim_C4_watermark_set_after_loop (env : Message → MsgEnv)
    (clock : Nat → Time) (t0 : Nat) (msgs : List Message) (st : AppState) :
    ∀ s, (process_new_emails_internal env clock t0 (.ok msgs) st).result = .ok s →
      (process_new_emails_internal env clock t0 (.ok msgs) st).state.last_check_time
        = some (clock (t0 + s.processed)) := by
  intro s hs
  obtain ⟨ws, cats, infos, hout, _⟩ := cycle_ok_spec env clock t0 msgs st
  rw [hout] at hs ⊢
  simp only [CycleResult.ok.injEq] at hs
  rw [← hs]

/-- The identity clock used by concrete runs: the n-th wall-clock read
returns n, so time is strictly increasing across reads. -/
def natClock : Nat → Time := fun n => n

/-- A per-message environment with no failures: the inference call
returns a valid category, the tag write succeeds, extraction does not
raise. -/
def envBase : Message → MsgEnv :=
  fun _ => { inferResp := .success (some "URGENT") (.num (9/10)) (some "ok"),
             tagOk := true, extractExn := false }

/-- Witness for C4 at a concrete zero-processed cycle: the fetch returns
nothing, yet the watermark is set (to the read at the invocation
position, since no per-message read happened). -/
theorem claim_C4_witness :
    (process_new_emails_internal envBase natClock 5 (.ok [])
        { processed_emails := [], last_check_time := none }).state.last_check_time
      = some (natClock (5 + 0)) :=
  claim_C4_watermark_set_after_loop envBase natClock 5 []
    { processed_emails := [], last_check_time := none }
    { processed := 0, lastCheck := none, newCheck := natClock 5,
      categories := [], emails := [] } rfl

/-- Concrete message used by the C4 counterexample. -/
def c4msg : Message :=
  { graphId := "g4", internetMessageId := some "C4", subject := some "s",
    bodyPreview := some "b", receivedDateTime := some 100,
    fromAddress := some "a@b.c" }

/-- Counterexample to C4 as stated: with the strictly increasing clock
`natClock` and one processed message, the cycle stores watermark value 1
(the read after the loop) while the cycle-start wall-clock value is
`natClock 0 = 0`; the watermark is therefore not the cycle-start
wall-clock time. -/
theorem claim_C4_counterexample :
    (process_new_emails_internal envBase natClock 0 (.ok [c4msg])
        { processed_emails := [], last_check_time := none }).state.last_check_time
      = some (natClock 1) ∧
    natClock 0 = 0 ∧
    (process_new_emails_internal envBase natClock 0 (.ok [c4msg])
        { processed_emails := [], last_check_time := none }).state.last_check_time
      ≠ some (natClock 0) := by
  refine ⟨rfl, rfl, ?_⟩
  decide

lemma filterNewMessages_eq_nil (w : Time) (msgs : List Message)
    (h : ∀ m ∈ msgs, ∀ t, m.receivedDateTime = some t → t ≤ w) :
    filterNewMessages (some w) msgs = [] := by
  simp only [filterNewMessages, List.filter_eq_nil_iff]
  intro m hm
  cases hrd : m.receivedDateTime with
  | none => simp
  | some t =>
      have := h m hm t hrd
      simp [Nat.not_lt.mpr this]

/-- C2: with a monotone clock and a fetch whose messages were all
received no later than the wall-clock value at the start of the first
run (no new mail in between), running the cycle twice with the same
fetch result processes zero messages the second time and leaves the
processed-emails ledger exactly unchanged by the second run; the second
run performs no `mark_processed` call at all. -/
theorem claim_C2_second_run_idempotent (env1 env2 : Message → MsgEnv)
    (clock : Nat → Time) (t0 : Nat) (msgs : List Message) (st : AppState)
    (hmono : Monotone clock)
    (hrecv : ∀ m ∈ msgs, ∀ t, m.receivedDateTime = some t → t ≤ clock t0) :
    (process_new_emails_internal env2 clock
        (process_new_emails_internal env1 clock t0 (.ok msgs) st).tick (.ok msgs)
        (process_new_emails_internal env1 clock t0 (.ok msgs) st).state).state.processed_emails
      = (process_new_emails_internal env1 clock t0 (.ok msgs) st).state.processed_emails ∧
    (process_new_emails_internal env2 clock
        (process_new_emails_internal env1 clock t0 (.ok msgs) st).tick (.ok msgs)
        (process_new_emails_internal env1 clock t0 (.ok msgs) st).state).writes = [] ∧
    ∃ s, (process_new_emails_internal env2 clock
        (process_new_emails_internal env1 clock t0 (.ok msgs) st).tick (.ok msgs)
        (process_new_emails_internal env1 clock t0 (.ok msgs) st).state).result = .ok s ∧
      s.processed = 0 := by
  obtain ⟨ws1, cats1, infos1, hout1, _⟩ := cycle_ok_spec env1 clock t0 msgs st
  rw [hout1]
  have hw : ∀ m ∈ msgs, ∀ t, m.receivedDateTime = some t →
      t ≤ clock (t0 + ws1.length) := by
    intro m hm t hrd
    exact le_trans (hrecv m hm t hrd) (hmono (Nat.le_add_right t0 ws1.length))
  have hnil : filterNewMessages (some (clock (t0 + ws1.length))) msgs = [] :=
    filterNewMessages_eq_nil _ msgs hw
  obtain ⟨ws2, cats2, infos2, hout2, hkeys2⟩ :=
    cycle_ok_spec env2 clock (t0 + ws1.length + 1) msgs
      { processed_emails := applyLog st.processed_emails ws1,
        last_check_time := some (clock (t0 + ws1.length)) }
  have hbatch : cycleBatch
      { processed_emails := applyLog st.processed_emails ws1,
        last_check_time := some (clock (t0 + ws1.length)) } msgs = [] := by
    simp only [cycleBatch, hnil]
    rfl
  have hws2 : ws2 = [] := by
    rw [hbatch] at hkeys2
    simpa [wkeys_nil] using hkeys2
  subst hws2
  rw [hout2]
  exact ⟨rfl, rfl, ⟨_, rfl, rfl⟩⟩

/-- Concrete message used by the C2 witness. -/
def c2msg : Message :=
  { graphId := "g2", internetMessageId := some "C2", subject := some "s",
    bodyPreview := some "b", receivedDateTime := some 3,
    fromAddress := some "a@b.c" }

/-- Witness for C2: a message received at time 3, fetched by two
successive runs under the identity clock starting at read position 4;
the second run changes nothing and reports zero processed. -/
theorem claim_C2_witness :
    (process_new_emails_internal envBase natClock
        (process_new_emails_internal envBase natClock 4 (.ok [c2msg])
          { processed_emails := [], last_check_time := none }).tick (.ok [c2msg])
        (process_new_emails_internal envBase natClock 4 (.ok [c2msg])
          { processed_emails := [], last_check_time := none }).state).state.processed_emails
      = (process_new_emails_internal envBase natClock 4 (.ok [c2msg])
          { processed_emails := [], last_check_time := none }).state.processed_emails ∧
    (process_new_emails_internal envBase natClock
        (process_new_emails_internal envBase natClock 4 (.ok [c2msg])
          { processed_emails := [], last_check_time := none }).tick (.ok [c2msg])
        (process_new_emails_internal envBase natClock 4 (.ok [c2msg])
          { processed_emails := [], last_check_time := none }).state).writes = [] ∧
    ∃ s, (process_new_emails_internal envBase natClock
        (process_new_emails_internal envBase natClock 4 (.ok [c2msg])
          { processed_emails := [], last_check_time := none }).tick (.ok [c2msg])
        (process_new_emails_internal envBase natClock 4 (.ok [c2msg])
          { processed_emails := [], last_check_time := none }).state).result = .ok s ∧
      s.processed = 0 :=
  claim_C2_second_run_idempotent envBase envBase natClock 4 [c2msg]
    { processed_emails := [], last_check_time := none }
    (fun _ _ h => h)
    (by
      intro m hm t hrd
      rw [List.mem_singleton] at hm
      subst hm
      cases hrd
      decide)

lemma length_filterMap_of_all_isSome {α β : Type} (f : α → Option β)
    (l : List α) (h : ∀ x ∈ l, (f x).isSome) :
    (l.filterMap f).length = l.length := by
  induction l with
  | nil => rfl
  | cons x l ih =>
      cases hx : f x with
      | none =>
          have := h x (List.mem_cons_self x l)
          rw [hx] at this
          simp at this
      | some y =>
          simp only [List.filterMap_cons, hx, List.length_cons]
          rw [ih (fun z hz => h z (List.mem_cons_of_mem x hz))]

lemma mem_cycleBatch_isSome (st : AppState) (msgs : List Message) (m : Message)
    (hm : m ∈ cycleBatch st msgs) : m.internetMessageId.isSome := by
  rcases mem_cycleBatch_id st msgs m hm with ⟨mid, hid, _⟩
  rw [hid]
  rfl

lemma wkeys_length_eq (env : Message → MsgEnv) (st : AppState)
    (msgs : List Message) :
    (wkeys env (cycleBatch st msgs)).length
      = ((cycleBatch st msgs).filter (fun m => !(env m).extractExn)).length := by
  unfold wkeys
  refine length_filterMap_of_all_isSome _ _ ?_
  intro m hm
  exact mem_cycleBatch_isSome st msgs m (List.mem_of_mem_filter hm)

/-- C6: for every batch and any combination of per-message failures, a
cycle whose fetch succeeded always completes and returns a summary (the
outer per-message handler at main.py lines 988-992 catches each
exception); the summary counts exactly the batch messages whose
extraction did not raise; the ledger write trace is keyed exactly by
those messages' identifiers, in order, whatever each message's tag-write
outcome is (a failed tag write is caught at lines 959-962 and the
ledger write still happens); and every non-raising batch message gets
its identifier written even when its own tag write fails. -/
theorem claim_C6_per_message_isolation (env : Message → MsgEnv)
    (clock : Nat → Time) (t0 : Nat) (msgs : List Message) (st : AppState) :
    (∃ s, (process_new_emails_internal env clock t0 (.ok msgs) st).result = .ok s ∧
      s.processed = ((cycleBatch st msgs).filter
        (fun m => !(env m).extractExn)).length) ∧
    (process_new_emails_internal env clock t0 (.ok msgs) st).writes.map Prod.fst
      = wkeys env (cycleBatch st msgs) ∧
    (∀ m ∈ cycleBatch st msgs, (env m).extractExn = false →
      ∀ mid, m.internetMessageId = some mid →
        mid ∈ (process_new_emails_internal env clock t0
          (.ok msgs) st).writes.map Prod.fst) := by
  obtain ⟨ws, cats, infos, hout, hkeys⟩ := cycle_ok_spec env clock t0 msgs st
  have hlen : ws.length = ((cycleBatch st msgs).filter
      (fun m => !(env m).extractExn)).length := by
    rw [← wkeys_length_eq env st msgs, ← hkeys, List.length_map]
  refine ⟨⟨_, by rw [hout], by simpa using hlen⟩, by rw [hout]; exact hkeys, ?_⟩
  intro m hm hexn mid hid
  rw [hout]
  show mid ∈ ws.map Prod.fst
  rw [hkeys]
  unfold wkeys
  refine List.mem_filterMap.mpr ⟨m, ?_, hid⟩
  exact List.mem_filter.mpr ⟨hm, by simp [hexn]⟩

/-- Messages used by the C6 witness: the first raises during field
extraction, the second classifies but its tag write fails. -/
def c6bad : Message :=
  { graphId := "g6a", internetMessageId := some "BAD", subject := none,
    bodyPreview := some "b", receivedDateTime := some 10,
    fromAddress := some "a@b.c" }

def c6good : Message :=
  { graphId := "g6b", internetMessageId := some "GOOD", subject := some "s",
    bodyPreview := some "b", receivedDateTime := some 11,
    fromAddress := some "a@b.c" }

/-- Environment for the C6 witness: extraction raises on `c6bad`, and
the tag write fails on `c6good`. -/
def c6env : Message → MsgEnv :=
  fun m =>
    { inferResp := .success (some "ACADEMIC") (.num (4/5)) (some "ok"),
      tagOk := decide (m.graphId ≠ "g6b"),
      extractExn := decide (m.graphId = "g6a") }

/-- Witness for C6: with one message raising at extraction and the
other failing its tag write, the cycle still returns a summary counting
one processed message, and the tag-failing message's ledger entry is
written. -/
theorem claim_C6_witness :
    (∃ s, (process_new_emails_internal c6env natClock 0 (.ok [c6bad, c6good])
        { processed_emails := [], last_check_time := none }).result = .ok s ∧
      s.processed = ((cycleBatch
        { processed_emails := [], last_check_time := none } [c6bad, c6good]).filter
        (fun m => !(c6env m).extractExn)).length) ∧
    (process_new_emails_internal c6env natClock 0 (.ok [c6bad, c6good])
        { processed_emails := [], last_check_time := none }).writes.map Prod.fst
      = wkeys c6env (cycleBatch
        { processed_emails := [], last_check_time := none } [c6bad, c6good]) ∧
    (∀ m ∈ cycleBatch { processed_emails := [], last_check_time := none }
        [c6bad, c6good], (c6env m).extractExn = false →
      ∀ mid, m.internetMessageId = some mid →
        mid ∈ (process_new_emails_internal c6env natClock 0 (.ok [c6bad, c6good])
          { processed_emails := [], last_check_time := none }).writes.map Prod.fst) :=
  claim_C6_per_message_isolation c6env natClock 0 [c6bad, c6good]
    { processed_emails := [], last_check_time := none }

/-- C10: when the watermark is set, a fetched message whose
receivedDateTime is missing or empty is silently dropped by the
watermark filter - it never reaches the per-message loop, so it is
neither classified nor written to the ledger; when the watermark is
unset (first cycle), such a message is kept by the filter, and if it
carries an unprocessed stable identifier and its extraction does not
raise, it is processed: its identifier appears in the cycle's ledger
write trace. -/
theorem claim_C10_missing_received_time (env : Message → MsgEnv)
    (clock : Nat → Time) (t0 : Nat) (msgs : List Message) (st : AppState)
    (m : Message) :
    (∀ w, st.last_check_time = some w → m.receivedDateTime = none →
      m ∉ filterNewMessages st.last_check_time msgs ∧
      m ∉ cycleBatch st msgs) ∧
    (st.last_check_time = none → m ∈ msgs → m.receivedDateTime = none →
      m ∈ filterNewMessages st.last_check_time msgs ∧
      (∀ mid, m.internetMessageId = some mid →
        is_processed st.processed_emails mid = false →
        (env m).extractExn = false →
        mid ∈ (process_new_emails_internal env clock t0
          (.ok msgs) st).writes.map Prod.fst)) := by
  constructor
  · intro w hw hrd
    rw [hw]
    constructor
    · intro hmem
      rcases (mem_filterNewMessages_some w msgs m).mp hmem with ⟨_, t, hrd', _⟩
      rw [hrd] at hrd'
      cases hrd'
    · intro hmem
      have hmem' : m ∈ filterNewMessages (some w) msgs := by
        have := List.mem_of_mem_filter hmem
        rw [hw] at this
        exact this
      rcases (mem_filterNewMessages_some w msgs m).mp hmem' with ⟨_, t, hrd', _⟩
      rw [hrd] at hrd'
      cases hrd'
  · intro hw hm _
    rw [hw]
    refine ⟨hm, ?_⟩
    intro mid hid hnp hexn
    obtain ⟨ws, cats, infos, hout, hkeys⟩ := cycle_ok_spec env clock t0 msgs st
    rw [hout]
    show mid ∈ ws.map Prod.fst
    rw [hkeys]
    have hmU : m ∈ cycleBatch st msgs := by
      refine (mem_filterUnprocessed _ _ _).mpr ⟨?_, mid, hid, hnp⟩
      rw [hw]
      exact hm
    unfold wkeys
    refine List.mem_filterMap.mpr ⟨m, ?_, hid⟩
    exact List.mem_filter.mpr ⟨hmU, by simp [hexn]⟩

/-- Message without a receivedDateTime, used by the C10 witness. -/
def c10msg : Message :=
  { graphId := "g10", internetMessageId := some "NOTIME", subject := some "s",
    bodyPreview := some "b", receivedDateTime := none,
    fromAddress := some "a@b.c" }

/-- Witness for C10: with watermark 5, the timeless message is dropped
before the loop; with watermark unset it is kept and its identifier is
written to the ledger. -/
theorem claim_C10_witness :
    (c10msg ∉ filterNewMessages
        (AppState.last_check_time
          { processed_emails := [], last_check_time := some 5 }) [c10msg] ∧
      c10msg ∉ cycleBatch
        { processed_emails := [], last_check_time := some 5 } [c10msg]) ∧
    (c10msg ∈ filterNewMessages
        (AppState.last_check_time
          { processed_emails := [], last_check_time := none }) [c10msg] ∧
      "NOTIME" ∈ (process_new_emails_internal envBase natClock 0 (.ok [c10msg])
        { processed_emails := [], last_check_time := none }).writes.map Prod.fst) :=
  ⟨(claim_C10_missing_received_time envBase natClock 0 [c10msg]
      { processed_emails := [], last_check_time := some 5 } c10msg).1 5 rfl rfl,
   (claim_C10_missing_received_time envBase natClock 0 [c10msg]
      { processed_emails := [], last_check_time := none } c10msg).2 rfl
      (List.mem_singleton.mpr rfl) rfl |>.imp id
      (fun h => h "NOTIME" rfl rfl rfl)⟩

/-- Two distinct fetched messages sharing the stable identifier "A",
with different subjects, used by the C1 counterexample. -/
def c1m1 : Message :=
  { graphId := "g1", internetMessageId := some "A", subject := some "s1",
    bodyPreview := some "b", receivedDateTime := some 100,
    fromAddress := some "a@b.c" }

def c1m2 : Message :=
  { graphId := "g2", internetMessageId := some "A", subject := some "s2",
    bodyPreview := some "b", receivedDateTime := some 101,
    fromAddress := some "a@b.c" }

/-- Counterexample to C1 as stated: when a single fetched batch contains
two messages with the same stable identifier (the already-processed
filter at main.py lines 904-916 consults only the pre-cycle ledger, so
both pass), the cycle calls `mark_processed` twice for that identifier:
the entry is created and then updated in the same cycle - the final
ledger holds the second message's data, not the first's - contradicting
created-exactly-once-and-never-updated. At most one entry per key still
exists, since the store is a keyed dict. -/
theorem claim_C1_counterexample :
    (process_new_emails_internal envBase natClock 0 (.ok [c1m1, c1m2])
        { processed_emails := [], last_check_time := none }).writes.map Prod.fst
      = ["A", "A"] ∧
    ¬ ((process_new_emails_internal envBase natClock 0 (.ok [c1m1, c1m2])
        { processed_emails := [], last_check_time := none }).writes.map Prod.fst).Nodup ∧
    ((process_new_emails_internal envBase natClock 0 (.ok [c1m1, c1m2])
        { processed_emails := [], last_check_time := none }).writes.head?.map
          (fun p => p.2.subject)) = some "s1" ∧
    ((dictGet (process_new_emails_internal envBase natClock 0 (.ok [c1m1, c1m2])
        { processed_emails := [], last_check_time := none }).state.processed_emails
        "A").map LedgerEntry.subject) = some "s2" := by
  refine ⟨rfl, by decide, rfl, rfl⟩

/-- C1 (amended): starting from the empty store, over any sequence of
cycles in which no single fetched batch contains two messages sharing a
stable identifier: the global `mark_processed` trace writes each
identifier at most once (created exactly once), the final value under
each written identifier is exactly the entry of its unique write (never
updated or deleted afterwards), the final ledger is the trace applied to
the empty dict (append-only by key), and the ledger holds at most one
entry per identifier. The same-identifier-in-two-successive-cycles case
is an instance: the second cycle's already-processed filter drops the
repeat, so exactly one entry exists afterwards (see the witness). -/
theorem claim_C1_ledger_append_only (clock : Nat → Time)
    (inputs : List ((Message → MsgEnv) × FetchResult))
    (h : ∀ i ∈ inputs, (batchKeys i.2).Nodup) :
    (((runCycles clock inputs
        { processed_emails := [], last_check_time := none } 0).2.2).map Prod.fst).Nodup ∧
    (∀ k v, (k, v) ∈ (runCycles clock inputs
        { processed_emails := [], last_check_time := none } 0).2.2 →
      dictGet (runCycles clock inputs
        { processed_emails := [], last_check_time := none } 0).1.processed_emails k
        = some v) ∧
    (runCycles clock inputs
        { processed_emails := [], last_check_time := none } 0).1.processed_emails
      = applyLog [] (runCycles clock inputs
        { processed_emails := [], last_check_time := none } 0).2.2 ∧
    (ledgerKeys (runCycles clock inputs
        { processed_emails := [], last_check_time := none } 0).1.processed_emails).Nodup := by
  obtain ⟨h1, h2, _⟩ := runCycles_spec clock inputs
    { processed_emails := [], last_check_time := none } 0 h
  refine ⟨h2, ?_, h1, ?_⟩
  · intro k v hkv
    rw [h1]
    exact dictGet_applyLog_of_mem [] _ k v h2 hkv
  · rw [h1]
    exact nodup_ledgerKeys_applyLog [] _ (by simp [ledgerKeys])

/-- Message with identifier "W", fetched by both cycles of the C1
witness. -/
def c1w : Message :=
  { graphId := "gw", internetMessageId := some "W", subject := some "sw",
    bodyPreview := some "b", receivedDateTime := some 100,
    fromAddress := some "a@b.c" }

/-- Witness for C1: the same message is fetched by two successive
cycles; the global trace writes "W" once, the final ledger holds exactly
that entry, and ledger keys are unique - exactly one entry for "W" after
the second cycle. -/
theorem claim_C1_witness :
    (((runCycles natClock [(envBase, .ok [c1w]), (envBase, .ok [c1w])]
        { processed_emails := [], last_check_time := none } 0).2.2).map Prod.fst).Nodup ∧
    (∀ k v, (k, v) ∈ (runCycles natClock [(envBase, .ok [c1w]), (envBase, .ok [c1w])]
        { processed_emails := [], last_check_time := none } 0).2.2 →
      dictGet (runCycles natClock [(envBase, .ok [c1w]), (envBase, .ok [c1w])]
        { processed_emails := [], last_check_time := none } 0).1.processed_emails k
        = some v) ∧
    (runCycles natClock [(envBase, .ok [c1w]), (envBase, .ok [c1w])]
        { processed_emails := [], last_check_time := none } 0).1.processed_emails
      = applyLog [] (runCycles natClock [(envBase, .ok [c1w]), (envBase, .ok [c1w])]
        { processed_emails := [], last_check_time := none } 0).2.2 ∧
    (ledgerKeys (runCycles natClock [(envBase, .ok [c1w]), (envBase, .ok [c1w])]
        { processed_emails := [], last_check_time := none } 0).1.processed_emails).Nodup :=
  claim_C1_ledger_append_only natClock [(envBase, .ok [c1w]), (envBase, .ok [c1w])]
    (by
      intro i hi
      rcases List.mem_cons.mp hi with rfl | hi
      · decide
      · rcases List.mem_cons.mp hi with rfl | hi
        · decide
        · cases hi)

/-- The write trace of the per-message loop under a constant clock: one
write per non-raising message, keyed by its identifier, carrying its
classification and the constant time. -/
def constWrites (env : Message → MsgEnv) (t : Time) (msgs : List Message) :
    List (String × LedgerEntry) :=
  (msgs.filter (fun m => !(env m).extractExn)).filterMap
    (fun m => m.internetMessageId.map
      (fun mid => (mid, procEntry env (fun _ => t) 0 m)))

lemma constWrites_nil (env : Message → MsgEnv) (t : Time) :
    constWrites env t [] = [] := rfl

lemma constWrites_cons_exn (env : Message → MsgEnv) (t : Time) (m : Message)
    (U : List Message) (hexn : (env m).extractExn = true) :
    constWrites env t (m :: U) = constWrites env t U := by
  simp [constWrites, List.filter_cons, hexn]

lemma constWrites_cons_noid (env : Message → MsgEnv) (t : Time) (m : Message)
    (U : List Message) (hexn : (env m).extractExn = false)
    (hid : m.internetMessageId = none) :
    constWrites env t (m :: U) = constWrites env t U := by
  simp [constWrites, List.filter_cons, hexn, List.filterMap_cons, hid]

lemma constWrites_cons_some (env : Message → MsgEnv) (t : Time) (m : Message)
    (U : List Message) (mid : String) (hexn : (env m).extractExn = false)
    (hid : m.internetMessageId = some mid) :
    constWrites env t (m :: U)
      = (mid, procEntry env (fun _ => t) 0 m) :: constWrites env t U := by
  simp [constWrites, List.filter_cons, hexn, List.filterMap_cons, hid]

lemma procEntry_const (env : Message → MsgEnv) (t : Time) (tick : Nat)
    (m : Message) :
    procEntry env (fun _ => t) tick m = procEntry env (fun _ => t) 0 m := rfl

/-- Under a constant clock, the per-message loop's effect is exactly
`constWrites` of the batch. -/
lemma foldl_processOne_const (env : Message → MsgEnv) (t : Time)
    (U : List Message) :
    ∀ acc : LoopAcc,
      (U.foldl (processOne env (fun _ => t)) acc).writes
        = acc.writes ++ constWrites env t U ∧
      (U.foldl (processOne env (fun _ => t)) acc).ledger
        = applyLog acc.ledger (constWrites env t U) ∧
      (U.foldl (processOne env (fun _ => t)) acc).processedCount
        = acc.processedCount + (constWrites env t U).length := by
  induction U with
  | nil =>
      intro acc
      exact ⟨by simp [constWrites_nil], by simp [constWrites_nil, applyLog_nil],
        by simp [constWrites_nil]⟩
  | cons m U ih =>
      intro acc
      rw [List.foldl_cons]
      by_cases hexn : (env m).extractExn
      · rw [processOne_exn _ _ acc m hexn, constWrites_cons_exn env t m U hexn]
        exact ih acc
      · have hexn' : (env m).extractExn = false := by simpa using hexn
        cases hid : m.internetMessageId with
        | none =>
            rw [processOne_noid _ _ acc m hexn' hid,
              constWrites_cons_noid env t m U hexn' hid]
            exact ih acc
        | some mid =>
            rw [processOne_some _ _ acc m mid hexn' hid,
              constWrites_cons_some env t m U mid hexn' hid]
            obtain ⟨h1, h2, h3⟩ := ih
              { ledger := dictInsert acc.ledger mid
                  (procEntry env (fun _ => t) acc.tick m),
                tick := acc.tick + 1,
                processedCount := acc.processedCount + 1,
                categoryCounts :=
                  counterIncr acc.categoryCounts
                    (classify_email (env m).inferResp).category,
                emailsInfo := acc.emailsInfo ++
                  [{ id := m.graphId, subject := m.subject.getD "(No Subject)",
                     category := (classify_email (env m).inferResp).category,
                     confidence := (classify_email (env m).inferResp).confidence,
                     receivedDateTime := m.receivedDateTime }],
                writes := acc.writes ++
                  [(mid, procEntry env (fun _ => t) acc.tick m)] }
            refine ⟨?_, ?_, ?_⟩
            · rw [h1]
              simp [procEntry_const]
            · rw [h2, applyLog_cons]
              rfl
            · rw [h3]
              simp
              omega

/-- A cycle under a constant clock: its write trace is `constWrites` of
its batch and its final store applies that trace and stores the constant
time as watermark. -/
lemma cycle_const_spec (env : Message → MsgEnv) (t : Time) (t0 : Nat)
    (msgs : List Message) (st : AppState) :
    (process_new_emails_internal env (fun _ => t) t0 (.ok msgs) st).writes
      = constWrites env t (cycleBatch st msgs) ∧
    (process_new_emails_internal env (fun _ => t) t0 (.ok msgs) st).state
      = { processed_emails :=
            applyLog st.processed_emails (constWrites env t (cycleBatch st msgs)),
          last_check_time := some t } := by
  obtain ⟨h1, h2, _⟩ := foldl_processOne_const env t (cycleBatch st msgs)
    { ledger := st.processed_emails, tick := t0, processedCount := 0,
      categoryCounts := [], emailsInfo := [], writes := [] }
  rw [List.nil_append] at h1
  constructor
  · show ((cycleBatch st msgs).foldl (processOne env (fun _ => t))
      { ledger := st.processed_emails, tick := t0, processedCount := 0,
        categoryCounts := [], emailsInfo := [], writes := [] }).writes = _
    exact h1
  · show ({ processed_emails :=
              ((cycleBatch st msgs).foldl (processOne env (fun _ => t))
                { ledger := st.processed_emails, tick := t0, processedCount := 0,
                  categoryCounts := [], emailsInfo := [], writes := [] }).ledger,
            last_check_time := some t } : AppState) = _
    rw [h2]

/-- Running the per-message loop of one execution alone in the
interleaving model agrees exactly with the cycle loop under a constant
clock. -/
lemma task_loop_alone (inp : TaskInput) :
    ∀ (pending : List Message) (L : List (String × LedgerEntry))
      (lct : Option Time) (c w : Nat),
      runTaskAlone inp (pending.length + 1)
          ({ processed_emails := L, last_check_time := lct }, .looping pending c w)
        = ({ processed_emails := applyLog L (constWrites inp.env inp.time pending),
             last_check_time := some inp.time },
           .finished (c + (constWrites inp.env inp.time pending).length)
             (w + (constWrites inp.env inp.time pending).length)) := by
  intro pending
  induction pending with
  | nil =>
      intro L lct c w
      simp [runTaskAlone, taskStep, constWrites_nil, applyLog_nil]
  | cons m rest ih =>
      intro L lct c w
      show runTaskAlone inp (rest.length + 1 + 1) _ = _
      rw [runTaskAlone]
      by_cases hexn : (inp.env m).extractExn
      · rw [show taskStep inp { processed_emails := L, last_check_time := lct }
            (.looping (m :: rest) c w)
            = ({ processed_emails := L, last_check_time := lct },
               .looping rest c w) by simp [taskStep, hexn]]
        rw [ih L lct c w, constWrites_cons_exn inp.env inp.time m rest hexn]
      · have hexn' : (inp.env m).extractExn = false := by simpa using hexn
        cases hid : m.internetMessageId with
        | none =>
            rw [show taskStep inp { processed_emails := L, last_check_time := lct }
                (.looping (m :: rest) c w)
                = ({ processed_emails := L, last_check_time := lct },
                   .looping rest c w) by simp [taskStep, hexn', hid]]
            rw [ih L lct c w, constWrites_cons_noid inp.env inp.time m rest hexn' hid]
        | some mid =>
            rw [show taskStep inp { processed_emails := L, last_check_time := lct }
                (.looping (m :: rest) c w)
                = ({ processed_emails := dictInsert L mid
                      (procEntry inp.env (fun _ => inp.time) 0 m),
                     last_check_time := lct },
                   .looping rest (c + 1) (w + 1)) by
                  simp [taskStep, hexn', hid, mark_processed, procEntry]]
            rw [ih (dictInsert L mid (procEntry inp.env (fun _ => inp.time) 0 m))
              lct (c + 1) (w + 1),
              constWrites_cons_some inp.env inp.time m rest mid hexn' hid,
              applyLog_cons]
            have hc : c + 1 + (constWrites inp.env inp.time rest).length
                = c + ((mid, procEntry inp.env (fun _ => inp.time) 0 m)
                    :: constWrites inp.env inp.time rest).length := by
              simp
              omega
            have hw : w + 1 + (constWrites inp.env inp.time rest).length
                = w + ((mid, procEntry inp.env (fun _ => inp.time) 0 m)
                    :: constWrites inp.env inp.time rest).length := by
              simp
              omega
            rw [hc, hw]

/-- Running one execution of the interleaving model alone, from fetch to
return, produces exactly the store and write count of
`process_new_emails_internal` under the constant clock returning that
execution's time: the two entry points drive the very same cycle
logic. -/
lemma runTaskAlone_eq_cycle (inp : TaskInput) (st : AppState) :
    runTaskAlone inp ((cycleBatch st inp.msgs).length + 3) (st, .start)
      = ((process_new_emails_internal inp.env (fun _ => inp.time) 0
            (.ok inp.msgs) st).state,
         .finished
           (process_new_emails_internal inp.env (fun _ => inp.time) 0
             (.ok inp.msgs) st).writes.length
           (process_new_emails_internal inp.env (fun _ => inp.time) 0
             (.ok inp.msgs) st).writes.length) := by
  obtain ⟨hw, hst⟩ := cycle_const_spec inp.env inp.time 0 inp.msgs st
  rw [hw, hst]
  show runTaskAlone inp ((cycleBatch st inp.msgs).length + 1 + 1 + 1) _ = _
  rw [runTaskAlone]
  rw [show taskStep inp st .start = (st, .fetched inp.msgs) from rfl]
  rw [runTaskAlone]
  rw [show taskStep inp st (.fetched inp.msgs)
      = (st, .looping (cycleBatch st inp.msgs) 0 0) from rfl]
  have := task_loop_alone inp (cycleBatch st inp.msgs) st.processed_emails
    st.last_check_time 0 0
  simp only [Nat.zero_add] at this
  exact this

lemma taskStep_keys_nodup (inp : TaskInput) (st : AppState) (pc : TaskPC)
    (h : (ledgerKeys st.processed_emails).Nodup) :
    (ledgerKeys (taskStep inp st pc).1.processed_emails).Nodup := by
  cases pc with
  | start => exact h
  | fetched msgs => exact h
  | finished c w => exact h
  | looping pending c w =>
      cases pending with
      | nil => exact h
      | cons m rest =>
          by_cases hexn : (inp.env m).extractExn
          · simpa [taskStep, hexn] using h
          · have hexn' : (inp.env m).extractExn = false := by simpa using hexn
            cases hid : m.internetMessageId with
            | none => simpa [taskStep, hexn', hid] using h
            | some mid =>
                simp only [taskStep, hexn', hid, Bool.false_eq_true, if_false,
                  mark_processed]
                exact nodup_ledgerKeys_dictInsert _ _ _ h

lemma sysRun_keys_nodup (hi si : TaskInput) (sched : List Bool) :
    ∀ s : SysState, (ledgerKeys s.shared.processed_emails).Nodup →
      (ledgerKeys (sysRun hi si sched s).shared.processed_emails).Nodup := by
  induction sched with
  | nil => intro s h; exact h
  | cons b sched ih =>
      intro s h
      show (ledgerKeys (sysRun hi si sched (sysStep hi si b s)).shared.processed_emails).Nodup
      refine ih _ ?_
      cases b with
      | true => exact taskStep_keys_nodup hi s.shared s.http h
      | false => exact taskStep_keys_nodup si s.shared s.sched h

/-- Message fetched by both executions of the C9 counterexample. -/
def c9msg : Message :=
  { graphId := "g9", internetMessageId := some "A9", subject := some "s9",
    bodyPreview := some "b", receivedDateTime := some 50,
    fromAddress := some "a@b.c" }

/-- The HTTP-triggered execution of the C9 counterexample. -/
def c9http : TaskInput := { msgs := [c9msg], env := envBase, time := 10 }

/-- The scheduler-triggered execution of the C9 counterexample. -/
def c9sched : TaskInput := { msgs := [c9msg], env := envBase, time := 20 }

/-- Initial system state of the C9 counterexample: empty store, both
executions about to start. -/
def c9init : SysState :=
  { shared := { processed_emails := [], last_check_time := none },
    http := .start, sched := .start }

/-- Counterexample to C9 as stated: there is an interleaving of an
HTTP-triggered and a scheduler-triggered execution (possible because the
endpoint at main.py line 1042 calls the cycle with no guard, while
APScheduler's max_instances=1 only serializes the scheduler's own job)
under which both in-flight executions pass the already-processed filter
before either has written, and then both write the ledger: both finish
with one ledger write performed - neither no-ops, is rejected, or waits.
The keyed dict still ends with a single entry for the identifier, with
the second execution's timestamp: the first execution's write was
silently overwritten. -/
theorem claim_C9_counterexample :
    (sysRun c9http c9sched [true, true, false, false, true, false, true, false]
        c9init).http = .finished 1 1 ∧
    (sysRun c9http c9sched [true, true, false, false, true, false, true, false]
        c9init).sched = .finished 1 1 ∧
    (sysRun c9http c9sched [true, true, false, false, true, false, true, false]
        c9init).shared.processed_emails.length = 1 ∧
    ((dictGet (sysRun c9http c9sched
        [true, true, false, false, true, false, true, false]
        c9init).shared.processed_emails "A9").map LedgerEntry.timestamp)
      = some 20 := by
  refine ⟨rfl, rfl, rfl, rfl⟩

/-- C9 (amended): the on-demand HTTP trigger and the scheduler both
invoke the very same reconciliation-cycle logic - running either
execution of the interleaving model alone from fetch to return yields
exactly the store and write count of `process_new_emails_internal` -
and under every interleaving of the two executions the shared keyed
ledger keeps at most one entry per stable identifier; but no
single-flight guard exists across the two entry points, and
interleavings occur in which both executions write the ledger (see the
counterexample). -/
theorem claim_C9_same_logic_no_cross_guard (hi si : TaskInput)
    (sched : List Bool) (s0 : SysState)
    (h : (ledgerKeys s0.shared.processed_emails).Nodup) :
    (ledgerKeys (sysRun hi si sched s0).shared.processed_emails).Nodup ∧
    (∀ (inp : TaskInput) (st : AppState),
      runTaskAlone inp ((cycleBatch st inp.msgs).length + 3) (st, .start)
        = ((process_new_emails_internal inp.env (fun _ => inp.time) 0
              (.ok inp.msgs) st).state,
           .finished
             (process_new_emails_internal inp.env (fun _ => inp.time) 0
               (.ok inp.msgs) st).writes.length
             (process_new_emails_internal inp.env (fun _ => inp.time) 0
               (.ok inp.msgs) st).writes.length)) :=
  ⟨sysRun_keys_nodup hi si sched s0 h,
   fun inp st => runTaskAlone_eq_cycle inp st⟩

/-- Witness for C9 (amended) at the counterexample's interleaving: the
racy schedule still leaves the ledger keys unique. -/
theorem claim_C9_witness :
    (ledgerKeys (sysRun c9http c9sched
        [true, true, false, false, true, false, true, false]
        c9init).shared.processed_emails).Nodup ∧
    (∀ (inp : TaskInput) (st : AppState),
      runTaskAlone inp ((cycleBatch st inp.msgs).length + 3) (st, .start)
        = ((process_new_emails_internal inp.env (fun _ => inp.time) 0
              (.ok inp.msgs) st).state,
           .finished
             (process_new_emails_internal inp.env (fun _ => inp.time) 0
               (.ok inp.msgs) st).writes.length
             (process_new_emails_internal inp.env (fun _ => inp.time) 0
               (.ok inp.msgs) st).writes.length)) :=
  claim_C9_same_logic_no_cross_guard c9http c9sched
    [true, true, false, false, true, false, true, false] c9init
    (by decide)
